import Mathlib

/-!
# Verification of the NinjaPay vault program and confidential-amount codec

A shallow embedding of the repository's two core modules:

* `programs/ninjapay-vault/src/lib.rs` — the ledger accounting core
  (`initialize`, `process_payment`, `update_fee`, `transfer_authority`),
  modelled as pure state-passing functions over a `VaultState`.
* `services/arcium-service/src/mpc/encryption.rs` — the confidential-amount
  codec (`derive_user_key`, `encrypt_amount`, `decrypt_amount`) and the
  commitment engine (`generate_commitment`, `verify_commitment`), together
  with executable models of the cryptographic primitives they call:
  SHA-256, HMAC-SHA256, HKDF-SHA256, ChaCha20 and Poly1305 (RFC 8439).

Bytes are modelled as `List Nat` with each element below 256; machine words
are `Nat` with explicit reduction modulo `2 ^ 32`, `2 ^ 64` or `2 ^ 128`
where the Rust code uses fixed-width arithmetic.
-/

namespace Ninjapay


/-! ## Byte-string utilities -/

/-- Little-endian encoding of `n` into exactly `k` bytes
(the model of Rust's `u64::to_le_bytes` and word serialization). -/
def natToLe : Nat → Nat → List Nat
  | 0, _ => []
  | k + 1, n => n % 256 :: natToLe k (n / 256)

/-- Little-endian decoding of a byte string
(the model of Rust's `u64::from_le_bytes`). -/
def leToNat : List Nat → Nat
  | [] => 0
  | b :: bs => b + 256 * leToNat bs

/-- Big-endian encoding of `n` into exactly `k` bytes. -/
def natToBe (k n : Nat) : List Nat := (natToLe k n).reverse

/-- Big-endian decoding of a byte string. -/
def beToNat (bs : List Nat) : Nat := leToNat bs.reverse

/-- The bytes of an ASCII string literal. -/
def asciiBytes (s : String) : List Nat := s.data.map Char.toNat

/-! ## SHA-256 (FIPS 180-4), the hash behind `sha2::Sha256` -/

/-- Reduce to a 32-bit word. -/
def w32 (n : Nat) : Nat := n % 2 ^ 32

/-- 32-bit right rotation. -/
def rotr32 (x n : Nat) : Nat := w32 ((x >>> n) ||| (x <<< (32 - n)))

def bigSigma0 (x : Nat) : Nat := rotr32 x 2 ^^^ rotr32 x 13 ^^^ rotr32 x 22

def bigSigma1 (x : Nat) : Nat := rotr32 x 6 ^^^ rotr32 x 11 ^^^ rotr32 x 25

def smallSigma0 (x : Nat) : Nat := rotr32 x 7 ^^^ rotr32 x 18 ^^^ (x >>> 3)

def smallSigma1 (x : Nat) : Nat := rotr32 x 17 ^^^ rotr32 x 19 ^^^ (x >>> 10)

/-- SHA-256 `Ch(x,y,z)`; `NOT x` is `x XOR 0xffffffff` on 32-bit words. -/
def chF (x y z : Nat) : Nat := (x &&& y) ^^^ ((x ^^^ 0xffffffff) &&& z)

/-- SHA-256 `Maj(x,y,z)`. -/
def majF (x y z : Nat) : Nat := (x &&& y) ^^^ (x &&& z) ^^^ (y &&& z)

/-- The 64 SHA-256 round constants. -/
def k256 : List Nat :=
  [1116352408, 1899447441, 3049323471, 3921009573, 961987163,
   1508970993, 2453635748, 2870763221, 3624381080, 310598401,
   607225278, 1426881987, 1925078388, 2162078206, 2614888103,
   3248222580, 3835390401, 4022224774, 264347078, 604807628,
   770255983, 1249150122, 1555081692, 1996064986, 2554220882,
   2821834349, 2952996808, 3210313671, 3336571891, 3584528711,
   113926993, 338241895, 666307205, 773529912, 1294757372,
   1396182291, 1695183700, 1986661051, 2177026350, 2456956037,
   2730485921, 2820302411, 3259730800, 3345764771, 3516065817,
   3600352804, 4094571909, 275423344, 430227734, 506948616,
   659060556, 883997877, 958139571, 1322822218, 1537002063,
   1747873779, 1955562222, 2024104815, 2227730452, 2361852424,
   2428436474, 2756734187, 3204031479, 3329325298]

/-- The SHA-256 initial hash value. -/
def h256 : List Nat :=
  [1779033703, 3144134277, 1013904242,
   2773480762, 1359893119, 2600822924,
   528734635, 1541459225]

/-- The SHA-256 working-variable tuple `(a,b,c,d,e,f,g,h)`. -/
abbrev Sha256Regs := Nat × Nat × Nat × Nat × Nat × Nat × Nat × Nat

/-- One SHA-256 compression round, consuming a `(roundConstant, scheduleWord)` pair. -/
def sha256Round (st : Sha256Regs) (kw : Nat × Nat) : Sha256Regs :=
  match st, kw with
  | (a, b, c, d, e, f, g, h), (ki, wi) =>
    let t1 := w32 (h + bigSigma1 e + chF e f g + ki + wi)
    let t2 := w32 (bigSigma0 a + majF a b c)
    (w32 (t1 + t2), a, b, c, w32 (d + t1), e, f, g)

/-- Extend the 16 message words of a block by one scheduled word. -/
def extendSchedule (ws : List Nat) : List Nat :=
  let n := ws.length
  ws ++ [w32 (smallSigma1 (ws.getD (n - 2) 0) + ws.getD (n - 7) 0 +
              smallSigma0 (ws.getD (n - 15) 0) + ws.getD (n - 16) 0)]

/-- The 64-entry SHA-256 message schedule of one 64-byte block. -/
def sha256Schedule (block : List Nat) : List Nat :=
  let w16 := (List.range 16).map fun j => beToNat ((block.drop (4 * j)).take 4)
  (List.range 48).foldl (fun ws _ => extendSchedule ws) w16

/-- Add the final working variables back onto the previous hash value. -/
def regsAdd (H : List Nat) (t : Sha256Regs) : List Nat :=
  match t with
  | (a, b, c, d, e, f, g, h) =>
    [w32 (H.getD 0 0 + a), w32 (H.getD 1 0 + b), w32 (H.getD 2 0 + c),
     w32 (H.getD 3 0 + d), w32 (H.getD 4 0 + e), w32 (H.getD 5 0 + f),
     w32 (H.getD 6 0 + g), w32 (H.getD 7 0 + h)]

/-- Compress one 64-byte block into the running 8-word hash state. -/
def sha256Compress (H : List Nat) (block : List Nat) : List Nat :=
  let ws := sha256Schedule block
  let init : Sha256Regs :=
    (H.getD 0 0, H.getD 1 0, H.getD 2 0, H.getD 3 0,
     H.getD 4 0, H.getD 5 0, H.getD 6 0, H.getD 7 0)
  regsAdd H ((k256.zip ws).foldl sha256Round init)

/-- SHA-256 padding: `0x80`, zeros to 56 mod 64, then the bit length big-endian. -/
def sha256Pad (msg : List Nat) : List Nat :=
  let l := msg.length
  let z := (64 + 55 - l % 64) % 64
  msg ++ 0x80 :: List.replicate z 0 ++ natToBe 8 (8 * l)

/-- The SHA-256 digest (32 bytes) of a byte string. -/
def sha256 (msg : List Nat) : List Nat :=
  let padded := sha256Pad msg
  let final := (List.range (padded.length / 64)).foldl
    (fun H i => sha256Compress H ((padded.drop (64 * i)).take 64)) h256
  (final.map (natToBe 4)).flatten

/-! ## HMAC-SHA256 (RFC 2104) and HKDF-SHA256 (RFC 5869), behind `hkdf::Hkdf` -/

/-- HMAC-SHA256 over a key and message. -/
def hmacSha256 (key msg : List Nat) : List Nat :=
  let k0 := if 64 < key.length then sha256 key else key
  let k1 := k0 ++ List.replicate (64 - k0.length) 0
  let ipad := k1.map fun b => b ^^^ 0x36
  let opad := k1.map fun b => b ^^^ 0x5c
  sha256 (opad ++ sha256 (ipad ++ msg))

/-- HKDF-Extract: the pseudorandom key from salt and input key material. -/
def hkdfExtract (salt ikm : List Nat) : List Nat := hmacSha256 salt ikm

/-- The unguarded HKDF-Expand output stream, truncated to `len` bytes:
`T(i) = HMAC(prk, T(i-1) || info || [i])`, `i` counted from 1. -/
def hkdfExpandBytes (prk info : List Nat) (len : Nat) : List Nat :=
  let n := (len + 31) / 32
  ((List.range n).foldl
    (fun acc i =>
      let t := hmacSha256 prk (acc.2 ++ info ++ [i + 1])
      (acc.1 ++ t, t)) (([] : List Nat), ([] : List Nat))).1.take len

/-- HKDF-Expand, failing (as `hkdf::Hkdf::expand` does) when the requested
output exceeds `255 * 32` bytes. -/
def hkdfExpand (prk info : List Nat) (len : Nat) : Option (List Nat) :=
  if 255 * 32 < len then none else some (hkdfExpandBytes prk info len)

/-! ## ChaCha20 and Poly1305 (RFC 8439), behind `chacha20poly1305` -/

/-- 32-bit left rotation. -/
def rotl32 (x n : Nat) : Nat := w32 ((x <<< n) ||| (x >>> (32 - n)))

/-- The ChaCha quarter round. -/
def quarterRound (t : Nat × Nat × Nat × Nat) : Nat × Nat × Nat × Nat :=
  match t with
  | (a, b, c, d) =>
    let a := w32 (a + b); let d := rotl32 (d ^^^ a) 16
    let c := w32 (c + d); let b := rotl32 (b ^^^ c) 12
    let a := w32 (a + b); let d := rotl32 (d ^^^ a) 8
    let c := w32 (c + d); let b := rotl32 (b ^^^ c) 7
    (a, b, c, d)

/-- Apply the quarter round to state positions `i j k l`. -/
def applyQR (s : List Nat) (i j k l : Nat) : List Nat :=
  let t := quarterRound (s.getD i 0, s.getD j 0, s.getD k 0, s.getD l 0)
  (((s.set i t.1).set j t.2.1).set k t.2.2.1).set l t.2.2.2

/-- One ChaCha double round: four column rounds then four diagonal rounds. -/
def doubleRound (s : List Nat) : List Nat :=
  let s := applyQR s 0 4 8 12
  let s := applyQR s 1 5 9 13
  let s := applyQR s 2 6 10 14
  let s := applyQR s 3 7 11 15
  let s := applyQR s 0 5 10 15
  let s := applyQR s 1 6 11 12
  let s := applyQR s 2 7 8 13
  applyQR s 3 4 9 14

/-- The initial ChaCha20 state: four constants, eight key words, the block
counter, and three nonce words, all little-endian. -/
def chachaInit (key : List Nat) (counter : Nat) (nonce : List Nat) : List Nat :=
  [0x61707865, 0x3320646e, 0x79622d32, 0x6b206574] ++
  ((List.range 8).map fun i => leToNat ((key.drop (4 * i)).take 4)) ++
  [counter % 2 ^ 32] ++
  ((List.range 3).map fun i => leToNat ((nonce.drop (4 * i)).take 4))

/-- The 16 output words of one ChaCha20 block. -/
def chachaBlockWords (key : List Nat) (counter : Nat) (nonce : List Nat) : List Nat :=
  let s0 := chachaInit key counter nonce
  let s := doubleRound^[10] s0
  List.zipWith (fun x y => w32 (x + y)) s s0

/-- The 64 keystream bytes of one ChaCha20 block (words serialized little-endian). -/
def chachaBlockBytes (key : List Nat) (counter : Nat) (nonce : List Nat) : List Nat :=
  ((chachaBlockWords key counter nonce).map (natToLe 4)).flatten

/-- `n` consecutive ChaCha20 keystream blocks starting at block `counter`. -/
def chachaBlocksFrom (key : List Nat) (nonce : List Nat) : Nat → Nat → List Nat
  | _, 0 => []
  | counter, n + 1 =>
    chachaBlockBytes key counter nonce ++ chachaBlocksFrom key nonce (counter + 1) n

/-- `len` bytes of ChaCha20 keystream, with the block counter starting at 1
(block 0 is reserved for the Poly1305 one-time key, per RFC 8439). -/
def chachaKeystream (key nonce : List Nat) (len : Nat) : List Nat :=
  (chachaBlocksFrom key nonce 1 ((len + 63) / 64)).take len

/-- ChaCha20 encryption (and decryption): XOR with the keystream. -/
def chachaXor (key nonce msg : List Nat) : List Nat :=
  List.zipWith (fun p k => p ^^^ k) msg (chachaKeystream key nonce msg.length)

/-- The Poly1305 `r` clamp. -/
def polyClamp (r : Nat) : Nat := r &&& 0x0ffffffc0ffffffc0ffffffc0fffffff

/-- The Poly1305 one-time authenticator tag (16 bytes) of a message. -/
def poly1305 (key msg : List Nat) : List Nat :=
  let r := polyClamp (leToNat (key.take 16))
  let s := leToNat ((key.drop 16).take 16)
  let p := 2 ^ 130 - 5
  let nb := (msg.length + 15) / 16
  let acc := (List.range nb).foldl
    (fun acc i =>
      let block := (msg.drop (16 * i)).take 16
      ((acc + (leToNat block + 2 ^ (8 * block.length))) * r) % p) 0
  natToLe 16 (acc + s)

/-- The Poly1305 one-time key: the first 32 bytes of ChaCha20 block 0. -/
def polyKeyGen (key nonce : List Nat) : List Nat :=
  (chachaBlockBytes key 0 nonce).take 32

/-- Zero padding of a message to a 16-byte boundary. -/
def pad16 (l : List Nat) : List Nat := List.replicate ((16 - l.length % 16) % 16) 0

/-- The byte string Poly1305 authenticates in the ChaCha20-Poly1305 AEAD:
AAD and ciphertext, each zero-padded to 16 bytes, then their lengths
as 64-bit little-endian words. -/
def macData (aad ct : List Nat) : List Nat :=
  aad ++ pad16 aad ++ ct ++ pad16 ct ++ natToLe 8 aad.length ++ natToLe 8 ct.length

/-- ChaCha20-Poly1305 sealing with empty AAD (the mode `cipher.encrypt` uses):
ciphertext followed by the 16-byte tag. -/
def aeadSeal (key nonce pt : List Nat) : List Nat :=
  let ct := chachaXor key nonce pt
  ct ++ poly1305 (polyKeyGen key nonce) (macData [] ct)

/-- ChaCha20-Poly1305 opening with empty AAD (the mode `cipher.decrypt` uses):
split off the 16-byte tag, recompute it over the ciphertext, and decrypt
only when the tags agree. -/
def aeadOpen (key nonce ctWithTag : List Nat) : Option (List Nat) :=
  if ctWithTag.length < 16 then none
  else
    let ct := ctWithTag.take (ctWithTag.length - 16)
    let tag := ctWithTag.drop (ctWithTag.length - 16)
    if poly1305 (polyKeyGen key nonce) (macData [] ct) = tag then
      some (chachaXor key nonce ct)
    else none

/-! ## The confidential-amount codec (`services/arcium-service/src/mpc/encryption.rs`) -/

/-- `NONCE_SIZE` from `encryption.rs`. -/
def NONCE_SIZE : Nat := 12

/-- `KEY_SIZE` from `encryption.rs`. -/
def KEY_SIZE : Nat := 32

/-- The two `ServiceError` variants `encryption.rs` produces, with their
formatted messages. -/
inductive ServiceError where
  | encryptionError (msg : String)
  | decryptionError (msg : String)
deriving DecidableEq

/-- `EncryptionResult` from `encryption.rs`. -/
structure EncryptionResult where
  ciphertext : List Nat
  nonce : List Nat
  commitment : String
deriving DecidableEq

/-- A lowercase hex digit. -/
def hexDigit (n : Nat) : Char :=
  if n < 10 then Char.ofNat (48 + n) else Char.ofNat (87 + n)

/-- Lowercase hex encoding of a byte string (`hex::encode`). -/
def hexEncode (bs : List Nat) : String :=
  String.mk (bs.foldr (fun b acc => hexDigit (b / 16) :: hexDigit (b % 16) :: acc) [])

/-- `ChaCha20Poly1305::new_from_slice`: succeeds exactly on 32-byte keys. -/
def new_from_slice (key : List Nat) : Option (List Nat) :=
  if key.length = KEY_SIZE then some key else none

/-- `derive_user_key`: HKDF-SHA256 with salt `SHA-256("ninjapay-v2")` and
info `"user:" ++ user_pubkey`, expanded to `KEY_SIZE` bytes. The user
identity is modelled by its byte string. -/
def derive_user_key (master_key user_pubkey : List Nat) : Except ServiceError (List Nat) :=
  let salt := sha256 (asciiBytes "ninjapay-v2")
  let info := asciiBytes "user:" ++ user_pubkey
  match hkdfExpand (hkdfExtract salt master_key) info KEY_SIZE with
  | none => .error (.encryptionError "HKDF expansion failed: invalid number of blocks")
  | some okm => .ok okm

/-- The raw 32 bytes `derive_user_key` produces on its success path. -/
def userKeyBytes (master_key user_pubkey : List Nat) : List Nat :=
  hkdfExpandBytes (hkdfExtract (sha256 (asciiBytes "ninjapay-v2")) master_key)
    (asciiBytes "user:" ++ user_pubkey) KEY_SIZE

/-- `generate_commitment`: the hex-encoded SHA-256 digest of the little-endian
amount followed by the blinding factor. -/
def generate_commitment (amount : Nat) (blinding_factor : List Nat) : String :=
  hexEncode (sha256 (natToLe 8 amount ++ blinding_factor))

/-- `verify_commitment`: recompute and compare. -/
def verify_commitment (amount : Nat) (blinding_factor : List Nat) (commitment : String) : Bool :=
  generate_commitment amount blinding_factor == commitment

/-- `encrypt_amount`. The 12 random bytes `rand::thread_rng().fill` draws are
passed in as the `nonce_bytes` parameter; everything after the draw follows
the source: derive the user key, build the cipher (an error is mapped to
`EncryptionError`), seal the 8-byte little-endian amount, and attach the
commitment over `(amount, nonce_bytes)`. -/
def encrypt_amount (amount : Nat) (master_key user_pubkey : List Nat)
    (nonce_bytes : List Nat) : Except ServiceError EncryptionResult :=
  match derive_user_key master_key user_pubkey with
  | .error e => .error e
  | .ok user_key =>
    match new_from_slice user_key with
    | none => .error (.encryptionError "Failed to create cipher: invalid length")
    | some cipher_key =>
      let amount_bytes := natToLe 8 amount
      let ciphertext := aeadSeal cipher_key nonce_bytes amount_bytes
      let commitment := generate_commitment amount nonce_bytes
      .ok { ciphertext := ciphertext, nonce := nonce_bytes, commitment := commitment }

/-- `decrypt_amount`: reject a nonce that is not exactly 12 bytes, derive the
user key, build the cipher, open the ciphertext (authentication failure is
`DecryptionError`), require an 8-byte plaintext, and decode it little-endian. -/
def decrypt_amount (ciphertext nonce master_key user_pubkey : List Nat) :
    Except ServiceError Nat :=
  if nonce.length ≠ NONCE_SIZE then
    .error (.decryptionError
      ("Invalid nonce size: expected 12, got " ++ toString nonce.length))
  else
    match derive_user_key master_key user_pubkey with
    | .error e => .error e
    | .ok user_key =>
      match new_from_slice user_key with
      | none => .error (.decryptionError "Failed to create cipher: invalid length")
      | some cipher_key =>
        match aeadOpen cipher_key nonce ciphertext with
        | none => .error (.decryptionError "Decryption failed: aead error")
        | some plaintext =>
          if plaintext.length ≠ 8 then
            .error (.decryptionError "Invalid plaintext length")
          else
            .ok (leToNat plaintext)

/-! ## The vault accounting core (`programs/ninjapay-vault/src/lib.rs`)

Principals (`Pubkey`) are opaque identifiers modelled as `Nat`; 32-byte
identifiers and commitments are byte strings. Fixed-width Rust arithmetic is
`Nat` with the checked operations modelled explicitly and the `as u64`
widen-back cast modelled as reduction modulo `2 ^ 64`. A failed `unwrap()`
(a Rust panic, which aborts the surrounding ledger transaction) is the
distinguished outcome `VaultErr.panicUnwrap`. -/

/-- `u64::checked_add`. -/
def checked_add64 (a b : Nat) : Option Nat :=
  if a + b < 2 ^ 64 then some (a + b) else none

/-- `u64::checked_sub`. -/
def checked_sub64 (a b : Nat) : Option Nat :=
  if b ≤ a then some (a - b) else none

/-- `u128::checked_mul`. -/
def checked_mul128 (a b : Nat) : Option Nat :=
  if a * b < 2 ^ 128 then some (a * b) else none

/-- `u128::checked_div`. -/
def checked_div128 (a b : Nat) : Option Nat :=
  if b = 0 then none else some (a / b)

/-- The failure outcomes of a vault instruction. `feeTooHigh`, `invalidAmount`
and `unauthorized` are the `VaultError` variants of the source. The remaining
constructors model outcomes decided outside `lib.rs`: `duplicateIdentifier` is
the ledger's rejection of `init` on an existing account (the spec's
`DuplicateIdentifier`), `transferFailed` is a propagated token-transfer error,
`panicUnwrap` is an aborting Rust panic from `unwrap()`, and
`arithmeticOverflow` is the error name the spec's taxonomy assigns to
overflow — the source never produces it. -/
inductive VaultErr where
  | feeTooHigh
  | invalidAmount
  | unauthorized
  | duplicateIdentifier
  | transferFailed
  | panicUnwrap
  | arithmeticOverflow
deriving DecidableEq

/-- `VaultConfig` from `lib.rs`. -/
structure VaultConfig where
  authority : Nat
  fee_collector : Nat
  fee_basis_points : Nat
  total_volume : Nat
  total_payments : Nat
  bump : Nat
deriving DecidableEq

/-- `PaymentRecord` from `lib.rs`. -/
structure PaymentRecord where
  payment_id : List Nat
  payer : Nat
  merchant : Nat
  amount : Nat
  fee : Nat
  commitment : List Nat
  timestamp : Int
  bump : Nat
deriving DecidableEq

/-- The ledger state a vault instruction can touch: the `VaultConfig`
singleton and the `PaymentRecord` accounts, keyed by `payment_id`. -/
structure VaultState where
  config : VaultConfig
  records : List (List Nat × PaymentRecord)
deriving DecidableEq

/-- Look up the `PaymentRecord` stored under a `payment_id`, if any. -/
def lookupRecord (records : List (List Nat × PaymentRecord)) (pid : List Nat) :
    Option PaymentRecord :=
  match records.find? (fun r => r.1 = pid) with
  | none => none
  | some r => some r.2

/-- `initialize` from `lib.rs` (named `initialize_vault` here): creates the
`VaultConfig` singleton with the given fee and zeroed totals. The
`fee_basis_points` argument is stored unchecked, exactly as in the source. -/
def initialize_vault (authority fee_collector : Nat) (fee_basis_points : Nat)
    (bump : Nat) : VaultState :=
  { config :=
      { authority := authority
        fee_collector := fee_collector
        fee_basis_points := fee_basis_points
        total_volume := 0
        total_payments := 0
        bump := bump }
    records := [] }

/-- The fee computation of `process_payment`, lines 39–45 of `lib.rs`:
`(amount as u128).checked_mul(bp).unwrap().checked_div(10000).unwrap() as u64`,
then `amount.checked_sub(fee).unwrap()`. The widen-back `as u64` cast is an
unchecked truncation. `none` is a failed `unwrap()`. -/
def fee_calc (amount fee_basis_points : Nat) : Option (Nat × Nat) :=
  match checked_mul128 amount fee_basis_points with
  | none => none
  | some wide =>
    match checked_div128 wide 10000 with
    | none => none
    | some wide_fee =>
      let fee := wide_fee % 2 ^ 64
      match checked_sub64 amount fee with
      | none => none
      | some net_amount => some (fee, net_amount)

/-- The arguments of one `process_payment` call: the instruction arguments,
the payer and merchant accounts, and the clock reading. -/
structure PaymentArgs where
  payer : Nat
  merchant : Nat
  amount : Nat
  payment_id : List Nat
  commitment : List Nat
  timestamp : Int
  record_bump : Nat

/-- `process_payment` from `lib.rs`, as a state-passing function returning
the instruction outcome together with the writes the core itself performed
(a failing ledger transaction is rolled back by the surrounding runtime, an
external collaborator not modelled here).

Modelled from the spec, because it is enforced by the ledger's account
machinery rather than by `lib.rs`: the `init` constraint on `payment_record`
gives atomic create-if-absent semantics, so a `payment_id` that already has a
record fails with `DuplicateIdentifier` before the body runs. The two token
transfers are external calls whose outcomes enter as the oracle booleans
`net_transfer_ok` and `fee_transfer_ok`; a `false` outcome is the propagated
transfer error. The body then follows the source line by line: compute the
fee split, transfer `net_amount`, transfer `fee` when `fee > 0`, write the
`PaymentRecord` fields, and update both totals with `checked_add().unwrap()`. -/
def process_payment (st : VaultState) (args : PaymentArgs)
    (net_transfer_ok fee_transfer_ok : Bool) :
    Except VaultErr Unit × VaultState :=
  if (lookupRecord st.records args.payment_id).isSome then
    (.error .duplicateIdentifier, st)
  else
    match fee_calc args.amount st.config.fee_basis_points with
    | none => (.error .panicUnwrap, st)
    | some (fee, _net_amount) =>
      if net_transfer_ok = false then
        (.error .transferFailed, st)
      else if 0 < fee ∧ fee_transfer_ok = false then
        (.error .transferFailed, st)
      else
        let record : PaymentRecord :=
          { payment_id := args.payment_id
            payer := args.payer
            merchant := args.merchant
            amount := args.amount
            fee := fee
            commitment := args.commitment
            timestamp := args.timestamp
            bump := args.record_bump }
        let st1 : VaultState :=
          { st with records := (args.payment_id, record) :: st.records }
        match checked_add64 st1.config.total_volume args.amount with
        | none => (.error .panicUnwrap, st1)
        | some volume =>
          let st2 : VaultState :=
            { st1 with config := { st1.config with total_volume := volume } }
          match checked_add64 st2.config.total_payments 1 with
          | none => (.error .panicUnwrap, st2)
          | some payments =>
            (.ok (), { st2 with config := { st2.config with total_payments := payments } })

/-- `update_fee` from `lib.rs`. Modelled from the spec, because it is enforced
by the account machinery rather than by `lib.rs`: the `has_one = authority`
constraint on `UpdateFee` requires the signing caller to equal the stored
authority and is checked before the instruction body. The body itself is the
source's `require!(new_fee_basis_points <= 1000, VaultError::FeeTooHigh)`
followed by the assignment. -/
def update_fee (st : VaultState) (caller : Nat) (new_fee_basis_points : Nat) :
    Except VaultErr Unit × VaultState :=
  if caller ≠ st.config.authority then
    (.error .unauthorized, st)
  else if new_fee_basis_points ≤ 1000 then
    (.ok (), { st with config := { st.config with fee_basis_points := new_fee_basis_points } })
  else
    (.error .feeTooHigh, st)

/-- `transfer_authority` from `lib.rs`. Modelled from the spec for the same
`has_one = authority` constraint; the body replaces the stored authority. -/
def transfer_authority (st : VaultState) (caller new_authority : Nat) :
    Except VaultErr Unit × VaultState :=
  if caller ≠ st.config.authority then
    (.error .unauthorized, st)
  else
    (.ok (), { st with config := { st.config with authority := new_authority } })

/-- A vault freshly initialized with authority 1, fee collector 2, 250 basis
points and bump 255 — the concrete state the witnesses run against. -/
def vault0 : VaultState := initialize_vault 1 2 250 255

/-- A concrete payment of 1,000,000 units under `payment_id` `[7]`. -/
def argsPay : PaymentArgs :=
  { payer := 10
    merchant := 11
    amount := 1000000
    payment_id := [7]
    commitment := [9]
    timestamp := 0
    record_bump := 254 }

/-- A vault whose `total_volume` accumulator sits at `u64::MAX`. -/
def vaultFullVolume : VaultState :=
  { config :=
      { authority := 0
        fee_collector := 1
        fee_basis_points := 0
        total_volume := 2 ^ 64 - 1
        total_payments := 0
        bump := 0 }
    records := [] }

/-- A one-unit payment used to overflow the volume accumulator. -/
def argsOne : PaymentArgs :=
  { payer := 5
    merchant := 6
    amount := 1
    payment_id := [8]
    commitment := []
    timestamp := 0
    record_bump := 0 }

/-- Decidable equality of instruction outcomes. -/
instance : DecidableEq (Except VaultErr Unit) := fun a b =>
  match a, b with
  | .ok (), .ok () => isTrue rfl
  | .error e, .error e2 =>
    if h : e = e2 then isTrue (by rw [h]) else isFalse (fun hc => h (by cases hc; rfl))
  | .ok _, .error _ => isFalse (fun hc => by cases hc)
  | .error _, .ok _ => isFalse (fun hc => by cases hc)

/-! ## Byte-string and digest lemmas -/

theorem natToLe_length (k n : Nat) : (natToLe k n).length = k := by
  induction k generalizing n with
  | zero => rfl
  | succ k ih => simp [natToLe, ih]

theorem natToBe_length (k n : Nat) : (natToBe k n).length = k := by
  simp [natToBe, natToLe_length]

theorem leToNat_natToLe (k n : Nat) : leToNat (natToLe k n) = n % 2 ^ (8 * k) := by
  induction k generalizing n with
  | zero => simp [natToLe, leToNat, Nat.mod_one]
  | succ k ih =>
    have h : (256 : Nat) * 2 ^ (8 * k) = 2 ^ (8 * (k + 1)) := by ring
    calc leToNat (natToLe (k + 1) n) = n % 256 + 256 * (n / 256 % 2 ^ (8 * k)) := by
          simp [natToLe, leToNat, ih]
      _ = n % (256 * 2 ^ (8 * k)) := (Nat.mod_mul).symm
      _ = n % 2 ^ (8 * (k + 1)) := by rw [h]

theorem regsAdd_length (H : List Nat) (t : Sha256Regs) : (regsAdd H t).length = 8 := by
  rcases t with ⟨a, b, c, d, e, f, g, h⟩
  rfl

theorem sha256Compress_length (H block : List Nat) :
    (sha256Compress H block).length = 8 := by
  unfold sha256Compress
  exact regsAdd_length _ _

theorem join_map_natToBe_length (k : Nat) (L : List Nat) :
    ((L.map (natToBe k)).flatten).length = k * L.length := by
  induction L with
  | nil => simp
  | cons x xs ih => simp [ih, natToBe_length]; ring

theorem sha256_length (msg : List Nat) : (sha256 msg).length = 32 := by
  unfold sha256
  have hfold : ∀ (l : List Nat) (H : List Nat), H.length = 8 →
      (l.foldl (fun H i => sha256Compress H (((sha256Pad msg).drop (64 * i)).take 64)) H).length = 8 := by
    intro l
    induction l with
    | nil => intro H hH; simpa using hH
    | cons x xs ih =>
      intro H hH
      simp only [List.foldl_cons]
      exact ih _ (sha256Compress_length _ _)
  rw [join_map_natToBe_length]
  rw [hfold _ h256 (by rfl)]

theorem hmacSha256_length (key msg : List Nat) : (hmacSha256 key msg).length = 32 :=
  sha256_length _

theorem hkdfExpandBytes32_length (prk info : List Nat) :
    (hkdfExpandBytes prk info 32).length = 32 := by
  unfold hkdfExpandBytes
  simp only [List.range, List.range.loop, List.foldl_cons, List.foldl_nil]
  simp [List.length_take, hmacSha256_length]

/-! ## Length lemmas for the cipher pipeline -/

theorem join_map_natToLe_length (k : Nat) (L : List Nat) :
    ((L.map (natToLe k)).flatten).length = k * L.length := by
  induction L with
  | nil => simp
  | cons x xs ih => simp [ih, natToLe_length]; ring

theorem applyQR_length (s : List Nat) (i j k l : Nat) :
    (applyQR s i j k l).length = s.length := by
  simp [applyQR, List.length_set]

theorem doubleRound_length (s : List Nat) : (doubleRound s).length = s.length := by
  simp [doubleRound, applyQR_length]

theorem iterate_doubleRound_length (n : Nat) (s : List Nat) :
    (doubleRound^[n] s).length = s.length := by
  induction n generalizing s with
  | zero => rfl
  | succ n ih => rw [Function.iterate_succ_apply, ih, doubleRound_length]

theorem chachaInit_length (key : List Nat) (c : Nat) (nonce : List Nat) :
    (chachaInit key c nonce).length = 16 := by
  simp [chachaInit]

theorem chachaBlockWords_length (key : List Nat) (c : Nat) (nonce : List Nat) :
    (chachaBlockWords key c nonce).length = 16 := by
  unfold chachaBlockWords
  rw [List.length_zipWith, iterate_doubleRound_length, chachaInit_length, Nat.min_self]

theorem chachaBlockBytes_length (key : List Nat) (c : Nat) (nonce : List Nat) :
    (chachaBlockBytes key c nonce).length = 64 := by
  unfold chachaBlockBytes
  rw [join_map_natToLe_length, chachaBlockWords_length]

theorem chachaBlocksFrom_length (key nonce : List Nat) (n c : Nat) :
    (chachaBlocksFrom key nonce c n).length = 64 * n := by
  induction n generalizing c with
  | zero => rfl
  | succ n ih =>
    simp [chachaBlocksFrom, chachaBlockBytes_length, ih]
    ring

theorem le_ceil_mul (len : Nat) : len ≤ 64 * ((len + 63) / 64) := by
  have h1 := Nat.div_add_mod (len + 63) 64
  have h2 : (len + 63) % 64 < 64 := Nat.mod_lt _ (by norm_num)
  omega

theorem chachaKeystream_length (key nonce : List Nat) (len : Nat) :
    (chachaKeystream key nonce len).length = len := by
  unfold chachaKeystream
  rw [List.length_take, chachaBlocksFrom_length]
  exact Nat.min_eq_left (le_ceil_mul len)

theorem chachaXor_length (key nonce msg : List Nat) :
    (chachaXor key nonce msg).length = msg.length := by
  unfold chachaXor
  rw [List.length_zipWith, chachaKeystream_length]
  exact Nat.min_self _

theorem poly1305_length (key msg : List Nat) : (poly1305 key msg).length = 16 := by
  simp [poly1305, natToLe_length]

/-! ## The AEAD round trip -/

theorem zipWith_xor_cancel :
    ∀ (pt ks : List Nat), pt.length ≤ ks.length →
      List.zipWith (fun p k => p ^^^ k) (List.zipWith (fun p k => p ^^^ k) pt ks) ks = pt := by
  intro pt
  induction pt with
  | nil => intro ks h; simp
  | cons p ps ih =>
    intro ks h
    cases ks with
    | nil => simp at h
    | cons k kks =>
      simp only [List.zipWith_cons_cons, List.cons.injEq]
      constructor
      · rw [Nat.xor_assoc, Nat.xor_self, Nat.xor_zero]
      · exact ih kks (by simpa using h)

theorem chachaXor_chachaXor (key nonce msg : List Nat) :
    chachaXor key nonce (chachaXor key nonce msg) = msg := by
  have hlen : (chachaXor key nonce msg).length = msg.length := chachaXor_length key nonce msg
  conv_lhs => rw [chachaXor, hlen]
  exact zipWith_xor_cancel msg _ (le_of_eq (chachaKeystream_length key nonce msg.length).symm)

theorem aeadOpen_aeadSeal (key nonce pt : List Nat) :
    aeadOpen key nonce (aeadSeal key nonce pt) = some pt := by
  unfold aeadSeal aeadOpen
  have hct : (chachaXor key nonce pt).length = pt.length := chachaXor_length key nonce pt
  have htag :
      (poly1305 (polyKeyGen key nonce) (macData [] (chachaXor key nonce pt))).length = 16 :=
    poly1305_length _ _
  rw [List.length_append, htag]
  rw [if_neg (by omega)]
  have hsub : (chachaXor key nonce pt).length + 16 - 16 = (chachaXor key nonce pt).length := by
    omega
  rw [hsub, List.take_left, List.drop_left, if_pos rfl]
  rw [chachaXor_chachaXor]

/-! ## Codec-level lemmas -/

theorem userKeyBytes_length (master_key user_pubkey : List Nat) :
    (userKeyBytes master_key user_pubkey).length = 32 :=
  hkdfExpandBytes32_length _ _

theorem derive_user_key_eq (master_key user_pubkey : List Nat) :
    derive_user_key master_key user_pubkey = .ok (userKeyBytes master_key user_pubkey) := by
  unfold derive_user_key hkdfExpand userKeyBytes
  norm_num [KEY_SIZE]

theorem new_from_slice_userKey (master_key user_pubkey : List Nat) :
    new_from_slice (userKeyBytes master_key user_pubkey) =
      some (userKeyBytes master_key user_pubkey) := by
  unfold new_from_slice
  rw [if_pos]
  exact userKeyBytes_length master_key user_pubkey

theorem encrypt_amount_eq (amount : Nat) (master_key user_pubkey nonce_bytes : List Nat) :
    encrypt_amount amount master_key user_pubkey nonce_bytes =
      .ok { ciphertext :=
              aeadSeal (userKeyBytes master_key user_pubkey) nonce_bytes (natToLe 8 amount)
            nonce := nonce_bytes
            commitment := generate_commitment amount nonce_bytes } := by
  unfold encrypt_amount
  simp only [derive_user_key_eq, new_from_slice_userKey]

/-! ## Claims about the confidential-amount codec -/

/-- C3: for every 64-bit amount, 32-byte master key and user identity,
decrypting the ciphertext and nonce produced by `encrypt_amount` under the
same master key and identity succeeds and returns the original amount. -/
theorem claim_C3_encrypt_decrypt_roundtrip
    (amount : Nat) (master_key user_pubkey nonce_bytes : List Nat)
    (hamount : amount < 2 ^ 64) (_hmk : master_key.length = 32)
    (hnonce : nonce_bytes.length = 12) :
    ∃ r, encrypt_amount amount master_key user_pubkey nonce_bytes = .ok r ∧
      decrypt_amount r.ciphertext r.nonce master_key user_pubkey = .ok amount := by
  refine ⟨_, encrypt_amount_eq amount master_key user_pubkey nonce_bytes, ?_⟩
  unfold decrypt_amount
  have h8 : (natToLe 8 amount).length = 8 := natToLe_length 8 amount
  simp [NONCE_SIZE, hnonce, derive_user_key_eq, new_from_slice_userKey, aeadOpen_aeadSeal,
    h8, leToNat_natToLe, Nat.mod_eq_of_lt hamount]
  omega

/-- C3 witness: a concrete round trip through the theorem. -/
theorem claim_C3_witness :
    ∃ r, encrypt_amount 5 (List.replicate 32 0) [] (List.replicate 12 0) = .ok r ∧
      decrypt_amount r.ciphertext r.nonce (List.replicate 32 0) [] = .ok 5 :=
  claim_C3_encrypt_decrypt_roundtrip 5 (List.replicate 32 0) [] (List.replicate 12 0)
    (by norm_num) (by simp) (by simp)

/-- C7: `generate_commitment` is a function of its two arguments (the SHA-256
digest of the little-endian amount followed by the blinding factor, hex
encoded), and `verify_commitment amount bf digest` is true exactly when
`digest` equals `generate_commitment amount bf`; in particular verifying a
freshly generated commitment always succeeds. -/
theorem claim_C7_commitment (amount : Nat) (blinding_factor : List Nat) (digest : String) :
    (verify_commitment amount blinding_factor digest = true ↔
      digest = generate_commitment amount blinding_factor) ∧
    verify_commitment amount blinding_factor (generate_commitment amount blinding_factor)
      = true := by
  unfold verify_commitment
  constructor
  · rw [beq_iff_eq]
    exact eq_comm
  · rw [beq_iff_eq]

/-- C9: `decrypt_amount` fails (always with a `DecryptionError`) exactly when
the nonce is not 12 bytes, authenticated decryption fails, or the recovered
plaintext is not 8 bytes; on success it little-endian-decodes the plaintext. -/
theorem claim_C9_decrypt_errors (ciphertext nonce master_key user_pubkey : List Nat) :
    ((∃ e, decrypt_amount ciphertext nonce master_key user_pubkey = .error e) ↔
      (nonce.length ≠ 12 ∨
        aeadOpen (userKeyBytes master_key user_pubkey) nonce ciphertext = none ∨
        ∃ pt, aeadOpen (userKeyBytes master_key user_pubkey) nonce ciphertext = some pt ∧
          pt.length ≠ 8)) ∧
    (∀ e, decrypt_amount ciphertext nonce master_key user_pubkey = .error e →
      ∃ msg, e = .decryptionError msg) ∧
    (∀ pt, nonce.length = 12 →
      aeadOpen (userKeyBytes master_key user_pubkey) nonce ciphertext = some pt →
      pt.length = 8 →
      decrypt_amount ciphertext nonce master_key user_pubkey = .ok (leToNat pt)) := by
  unfold decrypt_amount
  simp only [derive_user_key_eq, new_from_slice_userKey, NONCE_SIZE]
  by_cases hn : nonce.length = 12
  · cases hopen : aeadOpen (userKeyBytes master_key user_pubkey) nonce ciphertext with
    | none => simp [hopen, hn]
    | some pt =>
      by_cases hlen : pt.length = 8
      · simp [hopen, hn, hlen]
      · simp [hopen, hn, hlen]
  · simp [hn]

/-- C9 witness: an 11-byte-short nonce is rejected, through the theorem. -/
theorem claim_C9_witness :
    ∃ e, decrypt_amount [] [] [] [] = .error e :=
  ((claim_C9_decrypt_errors [] [] [] []).1).mpr (Or.inl (by decide))

/-- C10: `derive_user_key` always succeeds with a 32-byte key, for a master
key of any length, so the cipher-construction branch of `encrypt_amount` is
unreachable and `encrypt_amount` never returns an error. -/
theorem claim_C10_derive_total_encrypt_total (master_key user_pubkey : List Nat) :
    derive_user_key master_key user_pubkey = .ok (userKeyBytes master_key user_pubkey) ∧
    (userKeyBytes master_key user_pubkey).length = 32 ∧
    ∀ amount nonce_bytes, ∃ r,
      encrypt_amount amount master_key user_pubkey nonce_bytes = .ok r :=
  ⟨derive_user_key_eq master_key user_pubkey,
   userKeyBytes_length master_key user_pubkey,
   fun amount nonce_bytes => ⟨_, encrypt_amount_eq amount master_key user_pubkey nonce_bytes⟩⟩

/-! ## Lemmas about the checked arithmetic and the vault instructions -/

theorem checked_add64_some {a b c : Nat} (h : checked_add64 a b = some c) :
    c = a + b ∧ a + b < 2 ^ 64 := by
  unfold checked_add64 at h
  split at h
  · cases h
    exact ⟨rfl, by assumption⟩
  · cases h

theorem fee_calc_of_bp_le (amount bp : Nat)
    (hamount : amount < 2 ^ 64) (hbp : bp ≤ 1000) :
    fee_calc amount bp = some (amount * bp / 10000, amount - amount * bp / 10000) ∧
    amount * bp < 2 ^ 128 ∧
    amount * bp / 10000 < 2 ^ 64 ∧
    amount * bp / 10000 ≤ amount := by
  have hmul : amount * bp < 2 ^ 128 := by
    calc amount * bp ≤ amount * 1000 := Nat.mul_le_mul_left amount hbp
      _ ≤ (2 ^ 64 - 1) * 1000 := Nat.mul_le_mul_right 1000 (by omega)
      _ < 2 ^ 128 := by norm_num
  have hfee_le : amount * bp / 10000 ≤ amount := by
    have h1 : amount * bp ≤ 10000 * amount := by
      calc amount * bp ≤ amount * 10000 := Nat.mul_le_mul_left amount (by omega)
        _ = 10000 * amount := Nat.mul_comm amount 10000
    exact Nat.div_le_of_le_mul h1
  have hfee_lt : amount * bp / 10000 < 2 ^ 64 := lt_of_le_of_lt hfee_le hamount
  refine ⟨?_, hmul, hfee_lt, hfee_le⟩
  unfold fee_calc checked_mul128 checked_div128 checked_sub64
  simp only [if_pos hmul, if_neg (show ¬(10000 : Nat) = 0 by norm_num),
    Nat.mod_eq_of_lt hfee_lt, if_pos hfee_le]

/-! ## Claims about the accounting core -/

/-- C1: for `fee_basis_points ≤ 1000` the fee computation of
`process_payment` yields `fee = ⌊amount * bp / 10000⌋` through a 128-bit
intermediate product that cannot overflow, the widen-back step stays below
`2 ^ 64`, and `net + fee = amount`. -/
theorem claim_C1_fee_computation (amount fee_basis_points : Nat)
    (hamount : amount < 2 ^ 64) (hbp : fee_basis_points ≤ 1000) :
    fee_calc amount fee_basis_points =
      some (amount * fee_basis_points / 10000,
            amount - amount * fee_basis_points / 10000) ∧
    (amount - amount * fee_basis_points / 10000) + amount * fee_basis_points / 10000
      = amount ∧
    amount * fee_basis_points < 2 ^ 128 ∧
    amount * fee_basis_points / 10000 < 2 ^ 64 := by
  obtain ⟨hfc, hmul, hlt, hle⟩ := fee_calc_of_bp_le amount fee_basis_points hamount hbp
  exact ⟨hfc, Nat.sub_add_cancel hle, hmul, hlt⟩

/-- C1 witness: the spec's end-to-end scenario, 250 bp on 1,000,000 units. -/
theorem claim_C1_witness :
    fee_calc 1000000 250 =
      some (1000000 * 250 / 10000, 1000000 - 1000000 * 250 / 10000) ∧
    (1000000 - 1000000 * 250 / 10000) + 1000000 * 250 / 10000 = 1000000 :=
  ⟨(claim_C1_fee_computation 1000000 250 (by norm_num) (by norm_num)).1,
   (claim_C1_fee_computation 1000000 250 (by norm_num) (by norm_num)).2.1⟩

/-- Every branch of `process_payment` leaves `fee_basis_points` untouched and
never decreases either accumulator. -/
theorem process_payment_state_cases (st : VaultState) (args : PaymentArgs) (n f : Bool) :
    ((process_payment st args n f).2).config.fee_basis_points
      = st.config.fee_basis_points ∧
    st.config.total_volume ≤ ((process_payment st args n f).2).config.total_volume ∧
    st.config.total_payments ≤ ((process_payment st args n f).2).config.total_payments := by
  unfold process_payment
  split
  · exact ⟨rfl, le_refl _, le_refl _⟩
  split
  · exact ⟨rfl, le_refl _, le_refl _⟩
  split
  · exact ⟨rfl, le_refl _, le_refl _⟩
  split
  · exact ⟨rfl, le_refl _, le_refl _⟩
  dsimp only
  split
  · exact ⟨rfl, le_refl _, le_refl _⟩
  next volume hv =>
    have hv' := checked_add64_some hv
    split
    · exact ⟨rfl, by simp; omega, le_refl _⟩
    next payments hp =>
      have hp' := checked_add64_some hp
      exact ⟨rfl, by simp; omega, by simp; omega⟩

/-- `update_fee` leaves the state unchanged on failure, and on success writes
a fee that passed the `≤ 1000` guard; totals are never touched. -/
theorem update_fee_state_cases (st : VaultState) (caller x : Nat)
    (hbp : st.config.fee_basis_points ≤ 1000) :
    ((update_fee st caller x).2).config.fee_basis_points ≤ 1000 ∧
    ((update_fee st caller x).2).config.total_volume = st.config.total_volume ∧
    ((update_fee st caller x).2).config.total_payments = st.config.total_payments := by
  unfold update_fee
  split
  · exact ⟨hbp, rfl, rfl⟩
  split
  · next h => exact ⟨h, rfl, rfl⟩
  · exact ⟨hbp, rfl, rfl⟩

/-- `transfer_authority` never touches the fee or the totals. -/
theorem transfer_authority_state_cases (st : VaultState) (caller x : Nat) :
    ((transfer_authority st caller x).2).config.fee_basis_points
      = st.config.fee_basis_points ∧
    ((transfer_authority st caller x).2).config.total_volume = st.config.total_volume ∧
    ((transfer_authority st caller x).2).config.total_payments
      = st.config.total_payments := by
  unfold transfer_authority
  split
  · exact ⟨rfl, rfl, rfl⟩
  · exact ⟨rfl, rfl, rfl⟩

/-- C2 counterexample: `initialize` stores its `fee_basis_points` argument
without any bound check, so initializing with 1001 basis points violates the
claimed `fee_basis_points ≤ 1000` invariant immediately. -/
theorem claim_C2_counterexample :
    (initialize_vault 1 2 1001 255).config.fee_basis_points = 1001 ∧
    ¬ (initialize_vault 1 2 1001 255).config.fee_basis_points ≤ 1000 := by
  decide

/-- C2 as amended: `update_fee`, `transfer_authority` and `process_payment`
preserve `fee_basis_points ≤ 1000`, and none of them ever decreases
`total_volume` or `total_payments`; `initialize` however stores its argument
unchecked, so the invariant holds from creation only when the initial
argument is at most 1000. -/
theorem claim_C2_amended (st : VaultState) (caller x : Nat) (args : PaymentArgs)
    (n f : Bool) (hbp : st.config.fee_basis_points ≤ 1000) :
    ((update_fee st caller x).2).config.fee_basis_points ≤ 1000 ∧
    ((transfer_authority st caller x).2).config.fee_basis_points ≤ 1000 ∧
    ((process_payment st args n f).2).config.fee_basis_points ≤ 1000 ∧
    (∀ a fc bp b, (initialize_vault a fc bp b).config.fee_basis_points = bp) ∧
    st.config.total_volume ≤ ((update_fee st caller x).2).config.total_volume ∧
    st.config.total_payments ≤ ((update_fee st caller x).2).config.total_payments ∧
    st.config.total_volume ≤ ((transfer_authority st caller x).2).config.total_volume ∧
    st.config.total_payments
      ≤ ((transfer_authority st caller x).2).config.total_payments ∧
    st.config.total_volume ≤ ((process_payment st args n f).2).config.total_volume ∧
    st.config.total_payments
      ≤ ((process_payment st args n f).2).config.total_payments := by
  obtain ⟨hu1, hu2, hu3⟩ := update_fee_state_cases st caller x hbp
  obtain ⟨ht1, ht2, ht3⟩ := transfer_authority_state_cases st caller x
  obtain ⟨hp1, hp2, hp3⟩ := process_payment_state_cases st args n f
  refine ⟨hu1, ht1 ▸ hbp, hp1 ▸ hbp, fun a fc bp b => rfl,
    le_of_eq hu2.symm, le_of_eq hu3.symm, le_of_eq ht2.symm, le_of_eq ht3.symm, hp2, hp3⟩

/-- C2 witness: the amended invariant instantiated on the concrete vault. -/
theorem claim_C2_amended_witness :
    ((update_fee vault0 3 9999).2).config.fee_basis_points ≤ 1000 ∧
    ((process_payment vault0 argsPay true true).2).config.fee_basis_points ≤ 1000 ∧
    vault0.config.total_volume
      ≤ ((process_payment vault0 argsPay true true).2).config.total_volume := by
  obtain ⟨h1, _, h3, _, _, _, _, _, h9, _⟩ :=
    claim_C2_amended vault0 3 9999 argsPay true true (by decide)
  exact ⟨h1, h3, h9⟩

/-- The head record of the store is found by its own key. -/
theorem lookupRecord_cons_self (pid : List Nat) (rec : PaymentRecord)
    (rest : List (List Nat × PaymentRecord)) :
    lookupRecord ((pid, rec) :: rest) pid = some rec := by
  simp [lookupRecord, List.find?]

/-- A successful `process_payment` pushes exactly one record, keyed by the
payment id and carrying the instruction's fields, onto the store. -/
theorem process_payment_ok_records (st : VaultState) (args : PaymentArgs) (n f : Bool)
    (h : (process_payment st args n f).1 = .ok ()) :
    ∃ fee, ((process_payment st args n f).2).records =
      (args.payment_id,
        { payment_id := args.payment_id
          payer := args.payer
          merchant := args.merchant
          amount := args.amount
          fee := fee
          commitment := args.commitment
          timestamp := args.timestamp
          bump := args.record_bump }) :: st.records := by
  unfold process_payment at h ⊢
  split at h
  · simp at h
  next h1 =>
    split at h
    · simp at h
    next fee net heq =>
      split at h
      · simp at h
      next h3 =>
        split at h
        · simp at h
        next h4 =>
          dsimp only at h ⊢
          split at h
          · simp at h
          next volume heqv =>
            split at h
            · simp at h
            next payments heqp =>
              rw [if_neg h1, if_neg h3, if_neg h4]
              exact ⟨fee, rfl⟩

/-- C4: once `process_payment` has succeeded for a `payment_id`, the record
exists with the submitted fields, and any further submission under the same
`payment_id` fails with `DuplicateIdentifier`, leaving the state unchanged. -/
theorem claim_C4_duplicate_rejected (st : VaultState) (args : PaymentArgs)
    (n1 f1 n2 f2 : Bool) (h : (process_payment st args n1 f1).1 = .ok ()) :
    (∃ rec, lookupRecord ((process_payment st args n1 f1).2).records args.payment_id
        = some rec ∧
      rec.payer = args.payer ∧ rec.merchant = args.merchant ∧
      rec.amount = args.amount ∧ rec.commitment = args.commitment) ∧
    process_payment ((process_payment st args n1 f1).2) args n2 f2 =
      (.error .duplicateIdentifier, (process_payment st args n1 f1).2) := by
  obtain ⟨fee, hrec⟩ := process_payment_ok_records st args n1 f1 h
  constructor
  · exact ⟨_, by rw [hrec]; exact lookupRecord_cons_self _ _ _, rfl, rfl, rfl, rfl⟩
  · generalize hst : (process_payment st args n1 f1).2 = st' at hrec ⊢
    have hsome : (lookupRecord st'.records args.payment_id).isSome = true := by
      rw [hrec, lookupRecord_cons_self]
      rfl
    unfold process_payment
    rw [if_pos hsome]

/-- C4 witness: a concrete replayed payment, through the theorem. -/
theorem claim_C4_witness :
    (∃ rec, lookupRecord ((process_payment vault0 argsPay true true).2).records
        argsPay.payment_id = some rec ∧
      rec.payer = argsPay.payer ∧ rec.merchant = argsPay.merchant ∧
      rec.amount = argsPay.amount ∧ rec.commitment = argsPay.commitment) ∧
    process_payment ((process_payment vault0 argsPay true true).2) argsPay true true =
      (.error .duplicateIdentifier, (process_payment vault0 argsPay true true).2) :=
  claim_C4_duplicate_rejected vault0 argsPay true true true true (by decide)

/-- C5: if either token transfer fails, `process_payment` returns the
propagated transfer error with the state exactly as it was — no record and no
total is written; and a success requires both transfers (the fee transfer
whenever `fee > 0`) to have succeeded. -/
theorem claim_C5_atomic_transfers (st : VaultState) (args : PaymentArgs)
    (n f : Bool) (fee net : Nat)
    (hdup : lookupRecord st.records args.payment_id = none)
    (hfc : fee_calc args.amount st.config.fee_basis_points = some (fee, net)) :
    ((n = false ∨ (0 < fee ∧ f = false)) →
      process_payment st args n f = (.error .transferFailed, st)) ∧
    ((process_payment st args n f).1 = .ok () → n = true ∧ (0 < fee → f = true)) := by
  unfold process_payment
  rw [if_neg (by rw [hdup]; simp)]
  simp only [hfc]
  constructor
  · intro hd
    by_cases hn : n = false
    · rw [if_pos hn]
    · rcases hd with hn2 | hff
      · exact absurd hn2 hn
      · rw [if_neg hn, if_pos hff]
  · intro hok
    by_cases hn : n = false
    · rw [if_pos hn] at hok
      simp at hok
    · by_cases hff : 0 < fee ∧ f = false
      · rw [if_neg hn, if_pos hff] at hok
        simp at hok
      · refine ⟨by revert hn; cases n <;> simp, fun hfee => ?_⟩
        cases hf : f
        · exact absurd ⟨hfee, hf⟩ hff
        · rfl

/-- C5 witness: a failing net transfer aborts the concrete payment with the
vault untouched, through the theorem. -/
theorem claim_C5_witness :
    process_payment vault0 argsPay false true = (.error .transferFailed, vault0) :=
  ((claim_C5_atomic_transfers vault0 argsPay false true 25000 975000
    (by decide) (by decide)).1) (Or.inl rfl)

/-- C6 counterexample: with `total_volume` at `u64::MAX`, a 1-unit payment
makes the totals update wrap; the call aborts through a failed `unwrap()`
(a panic), not with any `ArithmeticOverflow` error — no such error exists in
the program. -/
theorem claim_C6_counterexample :
    (process_payment vaultFullVolume argsOne true true).1 = .error .panicUnwrap ∧
    (process_payment vaultFullVolume argsOne true true).1 ≠ .error .arithmeticOverflow := by
  constructor
  · rfl
  · intro hcontra
    have h2 : (Except.error VaultErr.panicUnwrap : Except VaultErr Unit)
        = .error .arithmeticOverflow := by
      rw [← hcontra]
      rfl
    cases h2

/-- C6 as amended: for `fee_basis_points ≤ 1000` the widen-back step never
exceeds `2 ^ 64` (so the truncating `as u64` cast is lossless and raises
nothing), and when the checked addition on `total_volume` or `total_payments`
would wrap, `process_payment` aborts through a failed `unwrap()` panic rather
than returning a named `ArithmeticOverflow` error. -/
theorem claim_C6_amended (st : VaultState) (args : PaymentArgs)
    (hamount : args.amount < 2 ^ 64) (hbp : st.config.fee_basis_points ≤ 1000)
    (hdup : lookupRecord st.records args.payment_id = none) :
    args.amount * st.config.fee_basis_points / 10000 < 2 ^ 64 ∧
    (2 ^ 64 ≤ st.config.total_volume + args.amount →
      (process_payment st args true true).1 = .error .panicUnwrap) ∧
    (st.config.total_volume + args.amount < 2 ^ 64 →
      2 ^ 64 ≤ st.config.total_payments + 1 →
      (process_payment st args true true).1 = .error .panicUnwrap) := by
  obtain ⟨hfc, hmul, hlt, hle⟩ :=
    fee_calc_of_bp_le args.amount st.config.fee_basis_points hamount hbp
  refine ⟨hlt, ?_, ?_⟩
  · intro hov
    unfold process_payment
    rw [if_neg (by rw [hdup]; simp)]
    simp only [hfc]
    rw [if_neg (by simp), if_neg (by simp)]
    rw [show checked_add64 st.config.total_volume args.amount = none from by
      unfold checked_add64
      rw [if_neg (by omega)]]
  · intro hv hp
    unfold process_payment
    rw [if_neg (by rw [hdup]; simp)]
    simp only [hfc]
    rw [if_neg (by simp), if_neg (by simp)]
    rw [show checked_add64 st.config.total_volume args.amount
        = some (st.config.total_volume + args.amount) from by
      unfold checked_add64
      rw [if_pos (by omega)]]
    rw [show checked_add64 st.config.total_payments 1 = none from by
      unfold checked_add64
      rw [if_neg (by omega)]]

/-- C6 witness: the saturated vault aborts by panic, through the theorem. -/
theorem claim_C6_amended_witness :
    (process_payment vaultFullVolume argsOne true true).1 = .error .panicUnwrap :=
  (claim_C6_amended vaultFullVolume argsOne (by decide) (by decide) (by decide)).2.1
    (by decide)

/-- C8: with the caller equal to the stored authority, `update_fee` succeeds
exactly for `new_fee_basis_points ≤ 1000` and fails with `FeeTooHigh` above
1000 leaving the state unchanged; a caller other than the authority is
rejected before the fee guard runs. -/
theorem claim_C8_update_fee (st : VaultState) (caller new_fee_basis_points : Nat) :
    (caller = st.config.authority → new_fee_basis_points ≤ 1000 →
      update_fee st caller new_fee_basis_points =
        (.ok (), { st with config :=
          { st.config with fee_basis_points := new_fee_basis_points } })) ∧
    (caller = st.config.authority → 1000 < new_fee_basis_points →
      update_fee st caller new_fee_basis_points = (.error .feeTooHigh, st)) ∧
    (caller ≠ st.config.authority →
      update_fee st caller new_fee_basis_points = (.error .unauthorized, st)) := by
  unfold update_fee
  refine ⟨?_, ?_, ?_⟩
  · intro hc hle
    rw [if_neg (by simp [hc]), if_pos hle]
  · intro hc hgt
    rw [if_neg (by simp [hc]), if_neg (by omega)]
  · intro hc
    rw [if_pos hc]

/-- C8 witness: 1000 is accepted, 1001 is rejected with `FeeTooHigh`, and a
stranger is rejected, all through the theorem. -/
theorem claim_C8_witness :
    update_fee vault0 1 1000 =
      (.ok (), { vault0 with config :=
        { vault0.config with fee_basis_points := 1000 } }) ∧
    update_fee vault0 1 1001 = (.error .feeTooHigh, vault0) ∧
    update_fee vault0 99 500 = (.error .unauthorized, vault0) :=
  ⟨(claim_C8_update_fee vault0 1 1000).1 (by decide) (by decide),
   (claim_C8_update_fee vault0 1 1001).2.1 (by decide) (by decide),
   (claim_C8_update_fee vault0 99 500).2.2 (by decide)⟩

end Ninjapay
